import Mathlib

/-!
Shallow embedding of the seat-inventory and booking-lifecycle engine of the
`event-booker` service (Go + PostgreSQL), as implemented in
`internal/repository/event/repo.go` and `internal/service/event/service.go`.

The relational store is modelled as a pair of lists of rows (`events`,
`bookings`).  UUIDs are modelled as `Nat`, timestamps and durations as `Int`
(a monotone clock value `now` is passed to every operation in place of SQL
`NOW()`).  Each repository method is one Lean function; a SQL `UPDATE`
becomes a `List.map` guarded by the row predicate of its `WHERE` clause, and
the affected-row count becomes the length of the corresponding `filter`.
An operation that rolls back reports its error; the caller keeps the old
state (`applyOp`), mirroring `tx.Rollback`.
-/

namespace EventBooker

/-- Booking status.  The `bookings.status` column; the schema's check
constraint admits `pending`, `confirmed` and `cancelled`, and the spec's
data model additionally names `expired`. -/
inductive BStatus where
  | pending
  | confirmed
  | cancelled
  | expired
deriving DecidableEq, Repr

/-- A row of the `events` table. -/
structure EventRow where
  id : Nat
  title : String
  date : Int
  total_seats : Int
  available_seats : Int
  booking_ttl : Int
  created_at : Int
  updated_at : Int
deriving DecidableEq, Repr

/-- A row of the `bookings` table. -/
structure BookingRow where
  id : Nat
  event_id : Nat
  user_id : Nat
  status : BStatus
  expires_at : Int
  created_at : Int
  updated_at : Int
deriving DecidableEq, Repr

/-- The relational store: the two tables plus the id generator
(`gen_random_uuid()` is modelled as a counter). -/
structure DB where
  events : List EventRow
  bookings : List BookingRow
  nextID : Nat
deriving DecidableEq, Repr

/-- Domain error kinds of the repository layer (`repo.go` sentinel errors). -/
inductive Err where
  | eventNotFound
  | noSeatsAvailable
  | bookingNotFoundOrAlreadyConfirmed
  | bookingNotFoundOrAlreadyCancelled
deriving DecidableEq, Repr

/-- `Repository.CreateEvent`: `INSERT INTO events (title, date, total_seats,
available_seats, booking_ttl) VALUES ($1,$2,$3,$4,$5) RETURNING id`.
No condition is placed on any argument. -/
def createEvent (db : DB) (now : Int) (title : String) (date : Int)
    (totalSeats availableSeats : Int) (bookingTTL : Int) : Nat × DB :=
  let row : EventRow :=
    { id := db.nextID, title := title, date := date,
      total_seats := totalSeats, available_seats := availableSeats,
      booking_ttl := bookingTTL, created_at := now, updated_at := now }
  (db.nextID, { db with events := db.events ++ [row], nextID := db.nextID + 1 })

/-- `Service.CreateEvent`: builds the model and delegates to the repository;
the only possible failure is a storage error, which is outside the model. -/
def serviceCreateEvent (db : DB) (now : Int) (title : String) (date : Int)
    (totalSeats availableSeats : Int) (bookingTTL : Int) :
    Except Err (Nat × DB) :=
  Except.ok (createEvent db now title date totalSeats availableSeats bookingTTL)

/-- The `WHERE` predicate of the conditional seat decrement in
`Repository.CreateBooking`: `id = $1 AND available_seats > 0`. -/
def reserveMatch (eventID : Nat) (e : EventRow) : Bool :=
  e.id == eventID && decide (0 < e.available_seats)

/-- `Repository.CreateBooking`: one transaction that
(1) runs `UPDATE events SET available_seats = available_seats - 1,
updated_at = NOW() WHERE id = $1 AND available_seats > 0`;
(2) if zero rows were affected, rolls back and returns
`ErrNoSeatsAvailable`;
(3) otherwise inserts the booking row (status defaults to `pending`,
`created_at`/`updated_at` default to `NOW()`) and commits, reporting the
generated id. -/
def createBooking (db : DB) (now : Int) (eventID userID : Nat)
    (expiresAt : Int) : Except Err (Nat × DB) :=
  let rows := (db.events.filter (reserveMatch eventID)).length
  if rows = 0 then
    Except.error Err.noSeatsAvailable
  else
    let events1 := db.events.map (fun e =>
      if reserveMatch eventID e then
        { e with available_seats := e.available_seats - 1, updated_at := now }
      else e)
    let bk : BookingRow :=
      { id := db.nextID, event_id := eventID, user_id := userID,
        status := BStatus.pending, expires_at := expiresAt,
        created_at := now, updated_at := now }
    Except.ok (db.nextID,
      { events := events1, bookings := db.bookings ++ [bk],
        nextID := db.nextID + 1 })

/-- `Repository.GetEventByID`: `SELECT ... FROM events WHERE id = $1`,
`sql.ErrNoRows` mapped to `ErrEventNotFound`. -/
def getEventByID (db : DB) (eventID : Nat) : Except Err EventRow :=
  match db.events.find? (fun e => e.id == eventID) with
  | some e => Except.ok e
  | none => Except.error Err.eventNotFound

/-- `Service.BookEvent`: loads the event (`ErrEventNotFound` if absent),
rejects with `ErrNoSeatsAvailable` when `AvailableSeats <= 0`, otherwise
creates a pending booking with `expires_at = now + event.BookingTTL`. -/
def bookEvent (db : DB) (now : Int) (userID eventID : Nat) :
    Except Err (Nat × DB) :=
  match getEventByID db eventID with
  | Except.error _ => Except.error Err.eventNotFound
  | Except.ok event =>
    if event.available_seats ≤ 0 then
      Except.error Err.noSeatsAvailable
    else
      createBooking db now eventID userID (now + event.booking_ttl)

/-- The `WHERE` predicate of `Repository.ConfirmBooking`:
`id = $1 AND event_id = $2 AND user_id = $3 AND status = 'pending'`. -/
def confirmMatch (userID eventID bookingID : Nat) (b : BookingRow) : Bool :=
  b.id == bookingID && b.event_id == eventID && b.user_id == userID &&
    b.status == BStatus.pending

/-- `Repository.ConfirmBooking`: `UPDATE bookings SET status = 'confirmed',
updated_at = NOW() WHERE id = $1 AND event_id = $2 AND user_id = $3 AND
status = 'pending' RETURNING id`; zero rows (`sql.ErrNoRows`) is reported
as `ErrBookingNotFoundOrAlreadyConfirmed`.  The statement never touches the
`events` table. -/
def confirmBooking (db : DB) (now : Int) (userID eventID bookingID : Nat) :
    Except Err DB :=
  if (db.bookings.filter (confirmMatch userID eventID bookingID)).length = 0 then
    Except.error Err.bookingNotFoundOrAlreadyConfirmed
  else
    Except.ok { db with bookings := db.bookings.map (fun b =>
      if confirmMatch userID eventID bookingID b then
        { b with status := BStatus.confirmed, updated_at := now }
      else b) }

/-- The `WHERE` predicate of `Repository.CancelBooking`:
`id = $1 AND event_id = $2 AND user_id = $3 AND status = 'pending' AND
expires_at < NOW()`.  Note the guard requires the deadline to have
already passed. -/
def cancelMatch (now : Int) (userID eventID bookingID : Nat)
    (b : BookingRow) : Bool :=
  b.id == bookingID && b.event_id == eventID && b.user_id == userID &&
    b.status == BStatus.pending && decide (b.expires_at < now)

/-- `Repository.CancelBooking`: one transaction that
(1) runs the guarded `UPDATE bookings SET status = 'cancelled' ...
RETURNING id`; zero rows is reported as
`ErrBookingNotFoundOrAlreadyCancelled` and the transaction rolls back;
(2) on success runs `UPDATE events SET available_seats =
available_seats + 1, updated_at = NOW() WHERE id = $1` (unconditionally)
and commits. -/
def cancelBooking (db : DB) (now : Int) (userID eventID bookingID : Nat) :
    Except Err DB :=
  if (db.bookings.filter (cancelMatch now userID eventID bookingID)).length = 0 then
    Except.error Err.bookingNotFoundOrAlreadyCancelled
  else
    let bookings1 := db.bookings.map (fun b =>
      if cancelMatch now userID eventID bookingID b then
        { b with status := BStatus.cancelled, updated_at := now }
      else b)
    let events1 := db.events.map (fun e =>
      if e.id == eventID then
        { e with available_seats := e.available_seats + 1, updated_at := now }
      else e)
    Except.ok { db with events := events1, bookings := bookings1 }

/-- The row predicate of the `expired` CTE in
`Repository.CancelExpiredBookings`:
`status = 'pending' AND expires_at < NOW()`. -/
def expiredMatch (now : Int) (b : BookingRow) : Bool :=
  b.status == BStatus.pending && decide (b.expires_at < now)

/-- `Repository.CancelExpiredBookings`: one statement
`WITH expired AS (UPDATE bookings SET status = 'cancelled', updated_at =
NOW() WHERE status = 'pending' AND expires_at < NOW() RETURNING event_id)
UPDATE events SET available_seats = available_seats + 1, updated_at = NOW()
FROM expired WHERE events.id = expired.event_id RETURNING events.id`,
followed by counting the returned rows.  Under PostgreSQL `UPDATE ... FROM`
semantics each target row of `events` is updated at most once even when it
joins several `expired` rows, and `RETURNING` yields one row per updated
`events` row, so the count is the number of distinct events that had at
least one expired pending booking. -/
def cancelExpiredBookings (db : DB) (now : Int) : Nat × DB :=
  let expiredEventIds := (db.bookings.filter (expiredMatch now)).map
    (fun b => b.event_id)
  let bookings1 := db.bookings.map (fun b =>
    if expiredMatch now b then
      { b with status := BStatus.cancelled, updated_at := now }
    else b)
  let events1 := db.events.map (fun e =>
    if expiredEventIds.contains e.id then
      { e with available_seats := e.available_seats + 1, updated_at := now }
    else e)
  let count := (db.events.filter (fun e => expiredEventIds.contains e.id)).length
  (count, { db with events := events1, bookings := bookings1 })

/-- One store-level operation, as issued by a caller of the service. -/
inductive Op where
  | book (now : Int) (userID eventID : Nat)
  | confirm (now : Int) (userID eventID bookingID : Nat)
  | cancel (now : Int) (userID eventID bookingID : Nat)
  | reconcile (now : Int)

/-- Run one operation against the store; on a domain error the transaction
has rolled back and the state is unchanged. -/
def applyOp (db : DB) : Op → DB
  | Op.book now u ev =>
    match bookEvent db now u ev with
    | Except.ok (_, db2) => db2
    | Except.error _ => db
  | Op.confirm now u ev b =>
    match confirmBooking db now u ev b with
    | Except.ok db2 => db2
    | Except.error _ => db
  | Op.cancel now u ev b =>
    match cancelBooking db now u ev b with
    | Except.ok db2 => db2
    | Except.error _ => db
  | Op.reconcile now => (cancelExpiredBookings db now).2

/-- Run a sequence of operations. -/
def applyOps (db : DB) (ops : List Op) : DB :=
  ops.foldl applyOp db

/-- The rows of `events` with the given id (with the primary key there is
at most one). -/
def eventsWith (db : DB) (eventID : Nat) : List EventRow :=
  db.events.filter (fun e => e.id == eventID)

/-- A booking of the given event currently holding a seat
(status `pending` or `confirmed`). -/
def heldMatch (eventID : Nat) (b : BookingRow) : Bool :=
  b.event_id == eventID &&
    (b.status == BStatus.pending || b.status == BStatus.confirmed)

/-- The number of bookings of an event currently holding a seat. -/
def heldCount (db : DB) (eventID : Nat) : Nat :=
  (db.bookings.filter (heldMatch eventID)).length

/-- The conservation invariant of the spec: for every event,
`available_seats + |{pending ∪ confirmed bookings}| = total_seats`. -/
def conservation (db : DB) : Prop :=
  ∀ e ∈ db.events, e.available_seats + (heldCount db e.id : Int) = e.total_seats

/-- The inductive seat invariant: seats are non-negative and the held
bookings never overcommit the capacity. -/
def seatInv (db : DB) : Prop :=
  ∀ e ∈ db.events,
    0 ≤ e.available_seats ∧
      e.available_seats + (heldCount db e.id : Int) ≤ e.total_seats

/-- Relational well-formedness: `events.id` is a primary key. -/
def eventIdsNodup (db : DB) : Prop :=
  (db.events.map (fun e => e.id)).Nodup

/-- Issue one `BookEvent` per user in order, collecting each outcome
(the generated booking id or the domain error). -/
def reserveAll (db : DB) (now : Int) (eventID : Nat) :
    List Nat → DB × List (Except Err Nat)
  | [] => (db, [])
  | u :: rest =>
    match bookEvent db now u eventID with
    | Except.ok (bid, db2) =>
      let r := reserveAll db2 now eventID rest
      (r.1, Except.ok bid :: r.2)
    | Except.error e =>
      let r := reserveAll db now eventID rest
      (r.1, Except.error e :: r.2)

/-- A reservation outcome that succeeded. -/
def isOkRes : Except Err Nat → Bool
  | Except.ok _ => true
  | Except.error _ => false

/-- A reservation outcome that failed with `ErrNoSeatsAvailable`. -/
def isNoSeatsRes : Except Err Nat → Bool
  | Except.error Err.noSeatsAvailable => true
  | _ => false

instance (db : DB) : Decidable (conservation db) :=
  inferInstanceAs (Decidable (∀ e ∈ db.events,
    e.available_seats + (heldCount db e.id : Int) = e.total_seats))

instance (db : DB) : Decidable (seatInv db) :=
  inferInstanceAs (Decidable (∀ e ∈ db.events,
    0 ≤ e.available_seats ∧
      e.available_seats + (heldCount db e.id : Int) ≤ e.total_seats))

instance (db : DB) : Decidable (eventIdsNodup db) :=
  inferInstanceAs (Decidable (List.Nodup (db.events.map (fun (e : EventRow) => e.id))))

/-- A filter returning a single row forces `find?` to return that row. -/
theorem find?_of_filter_single {α : Type} (p : α → Bool) :
    ∀ (l : List α) (a : α), l.filter p = [a] → l.find? p = some a := by
  intro l
  induction l with
  | nil => intro a h; simp at h
  | cons x xs ih =>
    intro a h
    by_cases hp : p x
    · rw [List.filter_cons, if_pos hp] at h
      injection h with h1 h2
      subst h1
      simp [List.find?_cons, hp]
    · rw [List.filter_cons, if_neg hp] at h
      simp only [List.find?_cons, hp]
      exact ih a h

/-- Pointwise relation between a list and its image under a map. -/
theorem forall₂_map_self {α : Type} (R : α → α → Prop) (f : α → α)
    (l : List α) (h : ∀ a ∈ l, R a (f a)) : List.Forall₂ R l (l.map f) := by
  induction l with
  | nil => exact List.Forall₂.nil
  | cons x xs ih =>
    exact List.Forall₂.cons (h x (List.mem_cons_self x xs))
      (ih (fun a ha => h a (List.mem_cons_of_mem _ ha)))

/-- Filtering by id commutes with an update that preserves ids. -/
theorem filter_id_map (f : EventRow → EventRow)
    (hf : ∀ e, (f e).id = e.id) (ev : Nat) (l : List EventRow) :
    (l.map f).filter (fun e => e.id == ev) =
      (l.filter (fun e => e.id == ev)).map f := by
  rw [List.filter_map]
  congr 1
  exact List.filter_congr (fun e _ => by simp [Function.comp, hf])

/-- An id-preserving row update does not change the id column. -/
theorem map_ids_of_pres (f : EventRow → EventRow)
    (hf : ∀ e, (f e).id = e.id) (l : List EventRow) :
    (l.map f).map (fun e => e.id) = l.map (fun e => e.id) := by
  rw [List.map_map]
  exact List.map_congr_left (fun e _ => hf e)

/-- A conditional row update whose condition holds nowhere is the
identity. -/
theorem map_if_false {α : Type} (p : α → Bool) (f : α → α) :
    ∀ (l : List α), (∀ a ∈ l, p a = false) →
      l.map (fun a => if p a then f a else a) = l := by
  intro l
  induction l with
  | nil => intro _; rfl
  | cons x xs ih =>
    intro h
    have hx : p x = false := h x (List.mem_cons_self x xs)
    rw [List.map_cons, hx, if_neg Bool.false_ne_true,
      ih (fun a ha => h a (List.mem_cons_of_mem _ ha))]

/-- A filter whose condition holds nowhere returns no rows. -/
theorem filter_false_nil {α : Type} (p : α → Bool) (l : List α)
    (h : ∀ a ∈ l, p a = false) : l.filter p = [] :=
  List.filter_eq_nil_iff.mpr (fun a ha => by rw [h a ha]; simp)

/-- The unique row returned by `eventsWith` carries the requested id. -/
theorem eventsWith_id (db : DB) (ev : Nat) (e0 : EventRow)
    (h : eventsWith db ev = [e0]) : e0.id = ev := by
  have hm : e0 ∈ eventsWith db ev := h ▸ List.mem_singleton.mpr rfl
  unfold eventsWith at hm
  have := (List.mem_filter.mp hm).2
  simpa using this

/-- `GetEventByID` returns the unique row with the requested id. -/
theorem getEventByID_eq (db : DB) (ev : Nat) (e0 : EventRow)
    (h : eventsWith db ev = [e0]) : getEventByID db ev = Except.ok e0 := by
  unfold eventsWith at h
  unfold getEventByID
  rw [find?_of_filter_single _ _ _ h]

/-- One event with one seat taken by a pending booking of user 7 whose
deadline (`expires_at = 10`) lies in the future at clock value 5. -/
def dbC1 : DB :=
  { events := [{ id := 1, title := "concert", date := 100, total_seats := 1,
                 available_seats := 0, booking_ttl := 30, created_at := 0,
                 updated_at := 0 }],
    bookings := [{ id := 10, event_id := 1, user_id := 7,
                   status := BStatus.pending, expires_at := 10,
                   created_at := 0, updated_at := 0 }],
    nextID := 11 }

/-- C1: the claim says a pending booking whose deadline has **not** passed
can be cancelled by its owner.  The code's guard is
`expires_at < NOW()`, so at clock 5 (before the deadline 10) the owner's
cancel fails with the not-cancellable error, while at clock 20 (after the
deadline) the very same cancel succeeds and restores the seat: the
deadline condition is inverted relative to the claim. -/
theorem c1_cancel_guard_inverted :
    cancelBooking dbC1 5 7 1 10 =
      Except.error Err.bookingNotFoundOrAlreadyCancelled ∧
    cancelBooking dbC1 20 7 1 10 =
      Except.ok
        { events := [{ id := 1, title := "concert", date := 100,
                       total_seats := 1, available_seats := 1,
                       booking_ttl := 30, created_at := 0,
                       updated_at := 20 }],
          bookings := [{ id := 10, event_id := 1, user_id := 7,
                         status := BStatus.cancelled, expires_at := 10,
                         created_at := 0, updated_at := 20 }],
          nextID := 11 } :=
  ⟨rfl, rfl⟩

/-- One event of capacity 2 with both seats taken by pending bookings that
are already past their deadline at clock value 5. -/
def dbC2 : DB :=
  { events := [{ id := 2, title := "expo", date := 200, total_seats := 2,
                 available_seats := 0, booking_ttl := 30, created_at := 0,
                 updated_at := 0 }],
    bookings := [{ id := 20, event_id := 2, user_id := 5,
                   status := BStatus.pending, expires_at := 1,
                   created_at := 0, updated_at := 0 },
                 { id := 21, event_id := 2, user_id := 6,
                   status := BStatus.pending, expires_at := 2,
                   created_at := 0, updated_at := 0 }],
    nextID := 22 }

/-- C2: the claim says bulk reconciliation marks every expired pending
booking `expired`, adds one seat per such booking (so an event with m of
them gains m seats) and returns the number of bookings transitioned.  On
an event with two expired pending bookings the code instead marks both
`cancelled`, adds only **one** seat to the event (the `UPDATE ... FROM`
join updates each event row at most once) and returns 1, the number of
distinct events touched, not 2. -/
theorem c2_reconcile_eval :
    cancelExpiredBookings dbC2 5 =
      (1,
        { events := [{ id := 2, title := "expo", date := 200,
                       total_seats := 2, available_seats := 1,
                       booking_ttl := 30, created_at := 0,
                       updated_at := 5 }],
          bookings := [{ id := 20, event_id := 2, user_id := 5,
                         status := BStatus.cancelled, expires_at := 1,
                         created_at := 0, updated_at := 5 },
                       { id := 21, event_id := 2, user_id := 6,
                         status := BStatus.cancelled, expires_at := 2,
                         created_at := 0, updated_at := 5 }],
          nextID := 22 }) :=
  rfl

/-- One event of capacity 2, both seats held by expired pending bookings;
the conservation invariant holds (`0 + 2 = 2`). -/
def dbC3 : DB :=
  { events := [{ id := 3, title := "gala", date := 300, total_seats := 2,
                 available_seats := 0, booking_ttl := 30, created_at := 0,
                 updated_at := 0 }],
    bookings := [{ id := 30, event_id := 3, user_id := 5,
                   status := BStatus.pending, expires_at := 1,
                   created_at := 0, updated_at := 0 },
                 { id := 31, event_id := 3, user_id := 6,
                   status := BStatus.pending, expires_at := 2,
                   created_at := 0, updated_at := 0 }],
    nextID := 32 }

/-- C3: the claim says every operation preserves
`available_seats + |pending ∪ confirmed| = total_seats`.  Bulk expiration
violates it: starting from a state where the invariant holds (capacity 2,
zero seats free, two held bookings), one reconciliation run releases both
bookings but returns only one seat, leaving `1 + 0 ≠ 2`. -/
theorem c3_reconcile_breaks_conservation :
    conservation dbC3 ∧ ¬ conservation (cancelExpiredBookings dbC3 5).2 := by
  decide

/-- C10: `CreateEvent` (service and repository) performs no seat-count
validation: for every title, date, TTL and every integer pair
`(totalSeats, availableSeats)` — including `availableSeats` negative or
greater than `totalSeats` — the operation returns a fresh event id without
a domain error and persists exactly the given pair. -/
theorem c10_createEvent_no_validation (db : DB) (now : Int) (title : String)
    (date totalSeats availableSeats ttl : Int) :
    ∃ id db2,
      serviceCreateEvent db now title date totalSeats availableSeats ttl =
        Except.ok (id, db2) ∧
      ∃ e ∈ db2.events, e.id = id ∧ e.title = title ∧
        e.total_seats = totalSeats ∧ e.available_seats = availableSeats ∧
        e.booking_ttl = ttl := by
  refine ⟨db.nextID,
    (createEvent db now title date totalSeats availableSeats ttl).2, rfl,
    ⟨_, List.mem_append_right _ (List.mem_singleton.mpr rfl),
      rfl, rfl, rfl, rfl, rfl⟩⟩

/-- C6: once a booking is in a terminal status (confirmed, cancelled or
expired — anything but `pending`), `ConfirmBooking` fails with the
not-confirmable error, `CancelBooking` fails with the not-cancellable
error, and either failed call leaves the store (in particular the event's
`available_seats`) unchanged. -/
theorem c6_terminal_state_immutable (db : DB) (now : Int) (u ev b : Nat)
    (hterm : ∀ bk ∈ db.bookings, bk.id = b → bk.status ≠ BStatus.pending) :
    confirmBooking db now u ev b =
      Except.error Err.bookingNotFoundOrAlreadyConfirmed ∧
    cancelBooking db now u ev b =
      Except.error Err.bookingNotFoundOrAlreadyCancelled ∧
    applyOp db (Op.confirm now u ev b) = db ∧
    applyOp db (Op.cancel now u ev b) = db := by
  have hc : db.bookings.filter (confirmMatch u ev b) = [] := by
    rw [List.filter_eq_nil_iff]
    intro bk hm hmt
    simp only [confirmMatch, Bool.and_eq_true, beq_iff_eq] at hmt
    exact hterm bk hm hmt.1.1.1 hmt.2
  have hx : db.bookings.filter (cancelMatch now u ev b) = [] := by
    rw [List.filter_eq_nil_iff]
    intro bk hm hmt
    simp only [cancelMatch, Bool.and_eq_true, beq_iff_eq] at hmt
    exact hterm bk hm hmt.1.1.1.1 hmt.1.2
  have h1 : confirmBooking db now u ev b =
      Except.error Err.bookingNotFoundOrAlreadyConfirmed := by
    unfold confirmBooking
    rw [hc]
    rfl
  have h2 : cancelBooking db now u ev b =
      Except.error Err.bookingNotFoundOrAlreadyCancelled := by
    unfold cancelBooking
    rw [hx]
    rfl
  exact ⟨h1, h2, by simp [applyOp, h1], by simp [applyOp, h2]⟩

/-- A store whose only booking with id 60 is already confirmed. -/
def dbC6 : DB :=
  { events := [{ id := 6, title := "fair", date := 600, total_seats := 3,
                 available_seats := 2, booking_ttl := 30, created_at := 0,
                 updated_at := 0 }],
    bookings := [{ id := 60, event_id := 6, user_id := 7,
                   status := BStatus.confirmed, expires_at := 10,
                   created_at := 0, updated_at := 0 },
                 { id := 61, event_id := 6, user_id := 7,
                   status := BStatus.cancelled, expires_at := 10,
                   created_at := 0, updated_at := 0 }],
    nextID := 62 }

/-- Witness for C6 at a confirmed booking. -/
theorem c6_witness :
    (∀ bk ∈ dbC6.bookings, bk.id = 60 → bk.status ≠ BStatus.pending) ∧
    (confirmBooking dbC6 9 7 6 60 =
        Except.error Err.bookingNotFoundOrAlreadyConfirmed ∧
      cancelBooking dbC6 9 7 6 60 =
        Except.error Err.bookingNotFoundOrAlreadyCancelled ∧
      applyOp dbC6 (Op.confirm 9 7 6 60) = dbC6 ∧
      applyOp dbC6 (Op.cancel 9 7 6 60) = dbC6) :=
  ⟨by decide, c6_terminal_state_immutable dbC6 9 7 6 60 (by decide)⟩

/-- When no pending booking is past the deadline, bulk reconciliation
returns 0 and does not mutate the store. -/
theorem reconcile_noop (db : DB) (now : Int)
    (hnil : db.bookings.filter (expiredMatch now) = []) :
    cancelExpiredBookings db now = (0, db) := by
  have hfalse : ∀ bk ∈ db.bookings, expiredMatch now bk = false := by
    intro bk hm
    have := List.filter_eq_nil_iff.mp hnil bk hm
    exact Bool.not_eq_true _ ▸ this
  have hbk : db.bookings.map (fun bk =>
      if expiredMatch now bk then
        { bk with status := BStatus.cancelled, updated_at := now }
      else bk) = db.bookings :=
    map_if_false _ _ _ hfalse
  have hev : db.events.map (fun e =>
      if ([] : List Nat).contains e.id then
        { e with available_seats := e.available_seats + 1, updated_at := now }
      else e) = db.events :=
    map_if_false _ _ _ (fun e _ => rfl)
  have hcount : db.events.filter (fun e =>
      ([] : List Nat).contains e.id) = [] :=
    filter_false_nil _ _ (fun e _ => rfl)
  unfold cancelExpiredBookings
  rw [hnil, hbk]
  simp only [List.map_nil]
  rw [hev, hcount]
  rfl

/-- C7: running bulk reconciliation a second time, when the first run left
no pending booking past the second run's deadline (no new expired pending
bookings in between), returns 0 and leaves the store exactly as the first
run left it. -/
theorem c7_reconcile_idempotent (db : DB) (now now2 : Int)
    (h : ∀ bk ∈ (cancelExpiredBookings db now).2.bookings,
        bk.status = BStatus.pending → ¬ bk.expires_at < now2) :
    cancelExpiredBookings (cancelExpiredBookings db now).2 now2 =
      (0, (cancelExpiredBookings db now).2) := by
  apply reconcile_noop
  rw [List.filter_eq_nil_iff]
  intro bk hm hmt
  simp only [expiredMatch, Bool.and_eq_true, beq_iff_eq,
    decide_eq_true_eq] at hmt
  exact h bk hm hmt.1 hmt.2

/-- A store with one expired pending booking at clock 5. -/
def dbC7 : DB :=
  { events := [{ id := 4, title := "talk", date := 400, total_seats := 1,
                 available_seats := 0, booking_ttl := 30, created_at := 0,
                 updated_at := 0 }],
    bookings := [{ id := 40, event_id := 4, user_id := 7,
                   status := BStatus.pending, expires_at := 1,
                   created_at := 0, updated_at := 0 }],
    nextID := 41 }

/-- Witness for C7: one reconciliation run leaves no expired pending
booking, so a second run at the same clock returns 0 and changes
nothing. -/
theorem c7_witness :
    (∀ bk ∈ (cancelExpiredBookings dbC7 5).2.bookings,
        bk.status = BStatus.pending → ¬ bk.expires_at < 5) ∧
    cancelExpiredBookings (cancelExpiredBookings dbC7 5).2 5 =
      (0, (cancelExpiredBookings dbC7 5).2) :=
  ⟨by decide, c7_reconcile_idempotent dbC7 5 5 (by decide)⟩

/-- C8: `ConfirmBooking` imposes no deadline condition: a pending booking
matching the given booking/event/user ids is confirmed even when its
`expires_at` already lies in the past. -/
theorem c8_confirm_ignores_deadline (db : DB) (now : Int) (u ev b : Nat)
    (bk : BookingRow) (hmem : bk ∈ db.bookings) (hid : bk.id = b)
    (hev : bk.event_id = ev) (hu : bk.user_id = u)
    (hst : bk.status = BStatus.pending) (hexp : bk.expires_at < now) :
    ∃ db2, confirmBooking db now u ev b = Except.ok db2 ∧
      { bk with status := BStatus.confirmed, updated_at := now } ∈
        db2.bookings := by
  have hmatch : confirmMatch u ev b bk = true := by
    simp [confirmMatch, hid, hev, hu, hst]
  have hmemf : bk ∈ db.bookings.filter (confirmMatch u ev b) :=
    List.mem_filter.mpr ⟨hmem, hmatch⟩
  have hne : ¬ (db.bookings.filter (confirmMatch u ev b)).length = 0 := by
    intro h0
    rw [List.length_eq_zero] at h0
    rw [h0] at hmemf
    exact List.not_mem_nil bk hmemf
  refine ⟨{ db with bookings := db.bookings.map (fun bk' =>
    if confirmMatch u ev b bk' then
      { bk' with status := BStatus.confirmed, updated_at := now }
    else bk') }, ?_, ?_⟩
  · unfold confirmBooking
    rw [if_neg hne]
  · have hm2 := List.mem_map_of_mem (fun bk' =>
      if confirmMatch u ev b bk' then
        { bk' with status := BStatus.confirmed, updated_at := now }
      else bk') hmem
    simpa [hmatch] using hm2

/-- A store with a pending booking (id 80) whose deadline 10 has passed
at clock 50. -/
def dbC8 : DB :=
  { events := [{ id := 8, title := "gig", date := 800, total_seats := 1,
                 available_seats := 0, booking_ttl := 30, created_at := 0,
                 updated_at := 0 }],
    bookings := [{ id := 80, event_id := 8, user_id := 9,
                   status := BStatus.pending, expires_at := 10,
                   created_at := 0, updated_at := 0 }],
    nextID := 81 }

/-- Witness for C8: the expired-but-unreconciled booking 80 is
confirmable at clock 50. -/
theorem c8_witness :
    ∃ db2, confirmBooking dbC8 50 9 8 80 = Except.ok db2 ∧
      { id := 80, event_id := 8, user_id := 9,
        status := BStatus.confirmed, expires_at := 10,
        created_at := 0, updated_at := 50 : BookingRow } ∈ db2.bookings :=
  c8_confirm_ignores_deadline dbC8 50 9 8 80
    { id := 80, event_id := 8, user_id := 9, status := BStatus.pending,
      expires_at := 10, created_at := 0, updated_at := 0 }
    (by decide) rfl rfl rfl rfl (by decide)

/-- C9: `ConfirmBooking` never touches the `events` relation (nor the id
generator), whether it succeeds or fails, and in the booking relation
every field except `status` and `updated_at` is preserved row by row:
unmatched rows are untouched and a matched row only has its status set to
`confirmed` and its `updated_at` refreshed. -/
theorem c9_confirm_frame (db : DB) (now : Int) (u ev b : Nat) :
    (applyOp db (Op.confirm now u ev b)).events = db.events ∧
    (applyOp db (Op.confirm now u ev b)).nextID = db.nextID ∧
    List.Forall₂ (fun old new =>
        new.id = old.id ∧ new.event_id = old.event_id ∧
        new.user_id = old.user_id ∧ new.expires_at = old.expires_at ∧
        new.created_at = old.created_at ∧
        (confirmMatch u ev b old = false → new = old) ∧
        (confirmMatch u ev b old = true →
          new = { old with status := BStatus.confirmed, updated_at := now }))
      db.bookings (applyOp db (Op.confirm now u ev b)).bookings := by
  by_cases h0 : (db.bookings.filter (confirmMatch u ev b)).length = 0
  · have herr : confirmBooking db now u ev b =
        Except.error Err.bookingNotFoundOrAlreadyConfirmed := by
      unfold confirmBooking
      rw [if_pos h0]
    have happ : applyOp db (Op.confirm now u ev b) = db := by
      simp [applyOp, herr]
    rw [happ]
    refine ⟨rfl, rfl, List.forall₂_same.mpr (fun bk hm => ?_)⟩
    have hfalse : confirmMatch u ev b bk = false := by
      rw [List.length_eq_zero] at h0
      have := List.filter_eq_nil_iff.mp h0 bk hm
      exact Bool.not_eq_true _ ▸ this
    exact ⟨rfl, rfl, rfl, rfl, rfl, fun _ => rfl,
      fun hmt => absurd hmt (by rw [hfalse]; simp)⟩
  · have hok : confirmBooking db now u ev b =
        Except.ok { db with bookings := db.bookings.map (fun bk =>
          if confirmMatch u ev b bk then
            { bk with status := BStatus.confirmed, updated_at := now }
          else bk) } := by
      unfold confirmBooking
      rw [if_neg h0]
    have happ : applyOp db (Op.confirm now u ev b) =
        { db with bookings := db.bookings.map (fun bk =>
          if confirmMatch u ev b bk then
            { bk with status := BStatus.confirmed, updated_at := now }
          else bk) } := by
      simp [applyOp, hok]
    rw [happ]
    refine ⟨rfl, rfl, forall₂_map_self _ _ _ (fun bk hm => ?_)⟩
    by_cases hmt : confirmMatch u ev b bk
    · rw [if_pos hmt]
      exact ⟨rfl, rfl, rfl, rfl, rfl,
        fun hf => absurd hmt (by rw [hf]; simp), fun _ => rfl⟩
    · rw [if_neg hmt]
      exact ⟨rfl, rfl, rfl, rfl, rfl, fun _ => rfl,
        fun ht => absurd ht hmt⟩

/-- The committed post-state of a successful reservation, exactly as
`Repository.CreateBooking` builds it when called from `Service.BookEvent`
on the event row `e0`: the conditional decrement applied to `events` and
the pending booking row appended with `expires_at = now + e0.booking_ttl`. -/
def bookResult (db : DB) (now : Int) (userID eventID : Nat)
    (e0 : EventRow) : DB :=
  { events := db.events.map (fun e =>
      if reserveMatch eventID e then
        { e with available_seats := e.available_seats - 1, updated_at := now }
      else e),
    bookings := db.bookings ++
      [{ id := db.nextID, event_id := eventID, user_id := userID,
         status := BStatus.pending, expires_at := now + e0.booking_ttl,
         created_at := now, updated_at := now }],
    nextID := db.nextID + 1 }

/-- When the unique row of the event has a free seat, the conditional
decrement matches exactly that row. -/
theorem reserveMatch_filter (db : DB) (ev : Nat) (e0 : EventRow)
    (h : eventsWith db ev = [e0]) (hpos : 0 < e0.available_seats) :
    db.events.filter (reserveMatch ev) = [e0] := by
  have h1 : db.events.filter (reserveMatch ev)
      = (db.events.filter (fun e => e.id == ev)).filter
          (fun e => decide (0 < e.available_seats)) := by
    rw [List.filter_filter]
    exact List.filter_congr (fun e _ => (Bool.and_comm _ _).symm)
  unfold eventsWith at h
  rw [h1, h]
  simp [hpos]

/-- Full case analysis of `Service.BookEvent` on a store whose `events`
table has exactly one row with the requested id: with no free seat the
call fails with `ErrNoSeatsAvailable`, otherwise it returns the generated
booking id together with the committed post-state. -/
theorem bookEvent_spec (db : DB) (now : Int) (u ev : Nat) (e0 : EventRow)
    (h : eventsWith db ev = [e0]) :
    (e0.available_seats ≤ 0 →
      bookEvent db now u ev = Except.error Err.noSeatsAvailable) ∧
    (0 < e0.available_seats →
      bookEvent db now u ev =
        Except.ok (db.nextID, bookResult db now u ev e0)) := by
  have hget := getEventByID_eq db ev e0 h
  constructor
  · intro hle
    simp only [bookEvent, hget]
    rw [if_pos hle]
  · intro hpos
    have hnle : ¬ e0.available_seats ≤ 0 := not_le.mpr hpos
    have hfil := reserveMatch_filter db ev e0 h hpos
    simp only [bookEvent, hget]
    rw [if_neg hnle]
    simp only [createBooking, hfil]
    rw [if_neg (by simp)]
    rfl

/-- A successful reservation leaves the event table with the same unique
row for the event, holding one seat fewer. -/
theorem eventsWith_bookResult (db : DB) (now : Int) (u ev : Nat)
    (e0 : EventRow) (h : eventsWith db ev = [e0])
    (hpos : 0 < e0.available_seats) :
    eventsWith (bookResult db now u ev e0) ev =
      [{ e0 with available_seats := e0.available_seats - 1,
                 updated_at := now }] := by
  have hid : e0.id = ev := eventsWith_id db ev e0 h
  have hm : reserveMatch ev e0 = true := by
    simp [reserveMatch, hid, hpos]
  have hf : ∀ e : EventRow,
      ((fun e => if reserveMatch ev e then
        { e with available_seats := e.available_seats - 1, updated_at := now }
      else e) e).id = e.id := by
    intro e
    by_cases hr : reserveMatch ev e <;> simp [hr]
  unfold bookResult eventsWith
  rw [filter_id_map _ hf ev db.events]
  unfold eventsWith at h
  rw [h]
  simp [hm]

/-- C5: `reserveSeat`, on a store with a unique row for the event:
(a) the seat decrement is guarded by `available_seats > 0`; (b) if it
affects zero rows the transaction is aborted, the call fails with
`NoSeatsAvailable`, and no booking row is created (the store is
unchanged); (c) otherwise the event loses one seat, a booking row with
status `pending` and `expires_at = now + booking_ttl` is inserted, and
the new booking's id is returned. -/
theorem c5_reserveSeat (db : DB) (now : Int) (u ev : Nat) (e0 : EventRow)
    (h : eventsWith db ev = [e0]) :
    (e0.available_seats ≤ 0 →
      bookEvent db now u ev = Except.error Err.noSeatsAvailable ∧
      applyOp db (Op.book now u ev) = db) ∧
    (0 < e0.available_seats →
      bookEvent db now u ev =
        Except.ok (db.nextID, bookResult db now u ev e0) ∧
      (bookResult db now u ev e0).bookings =
        db.bookings ++
          [{ id := db.nextID, event_id := ev, user_id := u,
             status := BStatus.pending,
             expires_at := now + e0.booking_ttl,
             created_at := now, updated_at := now }] ∧
      eventsWith (bookResult db now u ev e0) ev =
        [{ e0 with available_seats := e0.available_seats - 1,
                   updated_at := now }]) := by
  obtain ⟨hneg, hpos⟩ := bookEvent_spec db now u ev e0 h
  constructor
  · intro hle
    refine ⟨hneg hle, ?_⟩
    simp [applyOp, hneg hle]
  · intro hlt
    exact ⟨hpos hlt, rfl, eventsWith_bookResult db now u ev e0 h hlt⟩

/-- A store with one event (id 5) having exactly one free seat. -/
def dbC5 : DB :=
  { events := [{ id := 5, title := "play", date := 500, total_seats := 3,
                 available_seats := 1, booking_ttl := 30, created_at := 0,
                 updated_at := 0 }],
    bookings := [], nextID := 0 }

/-- Witness for C5 on both branches: reserving the last seat of event 5
succeeds with a pending booking expiring at `now + ttl`, and a second
reservation against the resulting sold-out store fails with
`NoSeatsAvailable` and changes nothing. -/
theorem c5_witness :
    (0 < (1 : Int) ∧
      (bookEvent dbC5 7 9 5 =
        Except.ok (0, bookResult dbC5 7 9 5
          { id := 5, title := "play", date := 500, total_seats := 3,
            available_seats := 1, booking_ttl := 30, created_at := 0,
            updated_at := 0 }) ∧
      (bookResult dbC5 7 9 5
          { id := 5, title := "play", date := 500, total_seats := 3,
            available_seats := 1, booking_ttl := 30, created_at := 0,
            updated_at := 0 }).bookings =
        dbC5.bookings ++
          [{ id := 0, event_id := 5, user_id := 9,
             status := BStatus.pending, expires_at := 7 + 30,
             created_at := 7, updated_at := 7 }] ∧
      eventsWith (bookResult dbC5 7 9 5
          { id := 5, title := "play", date := 500, total_seats := 3,
            available_seats := 1, booking_ttl := 30, created_at := 0,
            updated_at := 0 }) 5 =
        [{ id := 5, title := "play", date := 500, total_seats := 3,
           available_seats := 0, booking_ttl := 30, created_at := 0,
           updated_at := 7 }])) ∧
    ((0 : Int) ≤ 0 ∧
      (bookEvent (applyOp dbC5 (Op.book 7 9 5)) 8 11 5 =
        Except.error Err.noSeatsAvailable ∧
      applyOp (applyOp dbC5 (Op.book 7 9 5)) (Op.book 8 11 5) =
        applyOp dbC5 (Op.book 7 9 5))) :=
  ⟨⟨by decide,
    (c5_reserveSeat dbC5 7 9 5
      { id := 5, title := "play", date := 500, total_seats := 3,
        available_seats := 1, booking_ttl := 30, created_at := 0,
        updated_at := 0 } (by decide)).2 (by decide)⟩,
   ⟨by decide,
    (c5_reserveSeat (applyOp dbC5 (Op.book 7 9 5)) 8 11 5
      { id := 5, title := "play", date := 500, total_seats := 3,
        available_seats := 0, booking_ttl := 30, created_at := 0,
        updated_at := 7 } (by decide)).1 (by decide)⟩⟩

/-- Counting after a conditional row update that takes every matched row
out of the counted set and leaves unmatched rows untouched. -/
theorem countP_map_flip {α : Type} (p m : α → Bool) (f : α → α)
    (l : List α) (hmatch : ∀ a, m a = true → p (f a) = false)
    (hstay : ∀ a, m a = false → f a = a) :
    (l.map f).countP p = l.countP (fun a => p a && !m a) := by
  rw [List.countP_map]
  apply List.countP_congr
  intro a _
  by_cases hm : m a
  · simp [Function.comp, hmatch a hm, hm]
  · have hm' : m a = false := Bool.not_eq_true _ ▸ hm
    simp [Function.comp, hstay a hm', hm']

/-- A count splits along any second predicate. -/
theorem countP_split {α : Type} (p m : α → Bool) (l : List α) :
    l.countP p =
      l.countP (fun a => p a && m a) + l.countP (fun a => p a && !m a) := by
  induction l with
  | nil => rfl
  | cons x xs ih =>
    simp only [List.countP_cons, ih]
    by_cases hm : m x <;> by_cases hp : p x <;> simp [hm, hp] <;> omega

/-- Inversion of a successful `CreateBooking`: the exact shape of the
committed state, and the existence of a row that passed the guard. -/
theorem createBooking_ok_shape (db : DB) (now : Int) (ev u : Nat)
    (xat : Int) (bid : Nat) (db2 : DB)
    (hok : createBooking db now ev u xat = Except.ok (bid, db2)) :
    db2.events = db.events.map (fun e =>
      if reserveMatch ev e then
        { e with available_seats := e.available_seats - 1, updated_at := now }
      else e) ∧
    db2.bookings = db.bookings ++
      [{ id := db.nextID, event_id := ev, user_id := u,
         status := BStatus.pending, expires_at := xat,
         created_at := now, updated_at := now }] ∧
    bid = db.nextID ∧ db2.nextID = db.nextID + 1 ∧
    ∃ em ∈ db.events, reserveMatch ev em = true := by
  by_cases h0 : (db.events.filter (reserveMatch ev)).length = 0
  · unfold createBooking at hok
    rw [if_pos h0] at hok
    exact absurd hok (by simp)
  · unfold createBooking at hok
    rw [if_neg h0] at hok
    simp only [Except.ok.injEq, Prod.mk.injEq] at hok
    obtain ⟨hbid, hdb2⟩ := hok
    subst hdb2
    refine ⟨rfl, rfl, hbid.symm, rfl, ?_⟩
    rw [List.length_eq_zero] at h0
    obtain ⟨em, hem⟩ := List.exists_mem_of_ne_nil _ h0
    exact ⟨em, (List.mem_filter.mp hem).1, (List.mem_filter.mp hem).2⟩

/-- Inversion of a successful `BookEvent`: it committed through
`CreateBooking` with some expiry timestamp. -/
theorem bookEvent_ok_inv (db : DB) (now : Int) (u ev bid : Nat) (db2 : DB)
    (hok : bookEvent db now u ev = Except.ok (bid, db2)) :
    ∃ xat, createBooking db now ev u xat = Except.ok (bid, db2) := by
  unfold bookEvent at hok
  cases hget : getEventByID db ev with
  | error e => rw [hget] at hok; simp at hok
  | ok event =>
    rw [hget] at hok
    simp only [] at hok
    by_cases hle : event.available_seats ≤ 0
    · rw [if_pos hle] at hok; simp at hok
    · rw [if_neg hle] at hok
      exact ⟨now + event.booking_ttl, hok⟩

/-- Inversion of a successful `CancelBooking`: the exact shape of the
committed state, and a non-empty match set for the guard. -/
theorem cancelBooking_ok_shape (db : DB) (now : Int) (u ev b : Nat)
    (db2 : DB) (hok : cancelBooking db now u ev b = Except.ok db2) :
    db2.events = db.events.map (fun e =>
      if e.id == ev then
        { e with available_seats := e.available_seats + 1, updated_at := now }
      else e) ∧
    db2.bookings = db.bookings.map (fun bk =>
      if cancelMatch now u ev b bk then
        { bk with status := BStatus.cancelled, updated_at := now }
      else bk) ∧
    db2.nextID = db.nextID ∧
    (db.bookings.filter (cancelMatch now u ev b)).length ≠ 0 := by
  by_cases h0 : (db.bookings.filter (cancelMatch now u ev b)).length = 0
  · unfold cancelBooking at hok
    rw [if_pos h0] at hok
    exact absurd hok (by simp)
  · unfold cancelBooking at hok
    rw [if_neg h0] at hok
    simp only [Except.ok.injEq] at hok
    subst hok
    exact ⟨rfl, rfl, rfl, h0⟩

/-- Inversion of a successful `ConfirmBooking`: only booking statuses and
timestamps change. -/
theorem confirmBooking_ok_shape (db : DB) (now : Int) (u ev b : Nat)
    (db2 : DB) (hok : confirmBooking db now u ev b = Except.ok db2) :
    db2.events = db.events ∧
    db2.bookings = db.bookings.map (fun bk =>
      if confirmMatch u ev b bk then
        { bk with status := BStatus.confirmed, updated_at := now }
      else bk) ∧
    db2.nextID = db.nextID := by
  by_cases h0 : (db.bookings.filter (confirmMatch u ev b)).length = 0
  · unfold confirmBooking at hok
    rw [if_pos h0] at hok
    exact absurd hok (by simp)
  · unfold confirmBooking at hok
    rw [if_neg h0] at hok
    simp only [Except.ok.injEq] at hok
    subst hok
    exact ⟨rfl, rfl, rfl⟩

/-- `heldCount` as a `countP`. -/
theorem heldCount_eq_countP (db : DB) (x : Nat) :
    heldCount db x = db.bookings.countP (heldMatch x) :=
  (List.countP_eq_length_filter _ _).symm

/-- A successful `ConfirmBooking` preserves the seat invariant: it does
not touch `events` and keeps every booking inside the held set. -/
theorem seatInv_confirm (db db2 : DB) (now : Int) (u ev b : Nat)
    (hinv : seatInv db) (hok : confirmBooking db now u ev b = Except.ok db2) :
    seatInv db2 := by
  obtain ⟨hev, hbk, -⟩ := confirmBooking_ok_shape db now u ev b db2 hok
  have hheld : ∀ x, heldCount db2 x = heldCount db x := by
    intro x
    rw [heldCount_eq_countP, heldCount_eq_countP, hbk, List.countP_map]
    apply List.countP_congr
    intro bk _
    by_cases hm : confirmMatch u ev b bk
    · have hpend : bk.status = BStatus.pending := by
        simp only [confirmMatch, Bool.and_eq_true, beq_iff_eq] at hm
        exact hm.2
      simp [Function.comp, hm, heldMatch, hpend]
    · have hm' : confirmMatch u ev b bk = false := Bool.not_eq_true _ ▸ hm
      simp [Function.comp, hm']
  intro e he
  rw [hev] at he
  have hi := hinv e he
  rw [hheld]
  exact hi

/-- A successful `CancelBooking` preserves the seat invariant: at least
one pending booking of the event left the held set while the event gained
exactly one seat. -/
theorem seatInv_cancel (db db2 : DB) (now : Int) (u ev b : Nat)
    (hinv : seatInv db) (hok : cancelBooking db now u ev b = Except.ok db2) :
    seatInv db2 := by
  obtain ⟨hev, hbk, -, hne⟩ := cancelBooking_ok_shape db now u ev b db2 hok
  have hm1 : 1 ≤ db.bookings.countP (cancelMatch now u ev b) := by
    rw [List.countP_eq_length_filter]
    omega
  have hheld2 : ∀ x, heldCount db2 x =
      db.bookings.countP
        (fun bk => heldMatch x bk && !(cancelMatch now u ev b bk)) := by
    intro x
    rw [heldCount_eq_countP, hbk]
    apply countP_map_flip
    · intro bk hmt
      rw [if_pos hmt]
      simp [heldMatch]
    · intro bk hmf
      simp [hmf]
  intro e2 he2
  rw [hev] at he2
  obtain ⟨e, he, rfl⟩ := List.mem_map.mp he2
  obtain ⟨h0, hle⟩ := hinv e he
  rw [heldCount_eq_countP] at hle
  by_cases hid : (e.id == ev) = true
  · have hideq : e.id = ev := by simpa using hid
    rw [if_pos hid]
    dsimp only
    rw [hheld2]
    have heq : db.bookings.countP
        (fun bk => heldMatch e.id bk && cancelMatch now u ev b bk) =
        db.bookings.countP (cancelMatch now u ev b) := by
      apply List.countP_congr
      intro bk _
      constructor
      · intro hb
        exact (Bool.and_eq_true _ _).mp hb |>.2
      · intro hb
        have hprops : bk.event_id = ev ∧ bk.status = BStatus.pending := by
          simp only [cancelMatch, Bool.and_eq_true, beq_iff_eq,
            decide_eq_true_eq] at hb
          exact ⟨hb.1.1.1.2, hb.1.2⟩
        simp [heldMatch, hprops.1, hprops.2, hideq, hb]
    have hsp := countP_split (heldMatch e.id) (cancelMatch now u ev b)
      db.bookings
    rw [heq] at hsp
    omega
  · rw [if_neg hid]
    have hidne : e.id ≠ ev := by simpa using hid
    refine ⟨h0, ?_⟩
    rw [hheld2]
    have heq0 : db.bookings.countP
        (fun bk => heldMatch e.id bk && cancelMatch now u ev b bk) = 0 := by
      rw [List.countP_eq_zero]
      intro bk _ hb
      simp only [heldMatch, cancelMatch, Bool.and_eq_true, beq_iff_eq,
        decide_eq_true_eq] at hb
      exact hidne (hb.1.1.symm.trans hb.2.1.1.1.2)
    have hsp := countP_split (heldMatch e.id) (cancelMatch now u ev b)
      db.bookings
    rw [heq0] at hsp
    omega

/-- A successful reservation preserves the seat invariant: with `events.id`
a primary key, the decremented row is exactly the row whose seat the new
pending booking holds. -/
theorem seatInv_book (db db2 : DB) (now : Int) (u ev bid : Nat)
    (hwf : eventIdsNodup db) (hinv : seatInv db)
    (hok : bookEvent db now u ev = Except.ok (bid, db2)) : seatInv db2 := by
  obtain ⟨xat, hcb⟩ := bookEvent_ok_inv db now u ev bid db2 hok
  obtain ⟨hev, hbk, -, -, em, hem, hrm⟩ :=
    createBooking_ok_shape db now ev u xat bid db2 hcb
  have hheld2 : ∀ x, heldCount db2 x =
      heldCount db x + (if (ev == x) = true then 1 else 0) := by
    intro x
    rw [heldCount_eq_countP, heldCount_eq_countP, hbk, List.countP_append]
    congr 1
    by_cases hx : (ev == x) = true <;>
      simp [List.countP_cons, heldMatch, hx]
  intro e2 he2
  rw [hev] at he2
  obtain ⟨e, he, rfl⟩ := List.mem_map.mp he2
  obtain ⟨h0, hle⟩ := hinv e he
  by_cases hmt : reserveMatch ev e = true
  · rw [if_pos hmt]
    obtain ⟨hide, hpos⟩ : e.id = ev ∧ 0 < e.available_seats := by
      simp only [reserveMatch, Bool.and_eq_true, beq_iff_eq,
        decide_eq_true_eq] at hmt
      exact hmt
    dsimp only
    rw [hheld2]
    have hevx : (ev == e.id) = true := by simp [hide]
    rw [hevx]
    constructor
    · omega
    · simp only [if_pos]
      push_cast
      omega
  · rw [if_neg hmt]
    by_cases hidx : e.id = ev
    · obtain ⟨hemid, -⟩ : em.id = ev ∧ 0 < em.available_seats := by
        simp only [reserveMatch, Bool.and_eq_true, beq_iff_eq,
          decide_eq_true_eq] at hrm
        exact hrm
      have heem : e = em :=
        List.inj_on_of_nodup_map hwf he hem (by rw [hidx, hemid])
      rw [heem] at hmt
      exact absurd hrm hmt
    · refine ⟨h0, ?_⟩
      rw [hheld2]
      have hevx : (ev == e.id) = false :=
        beq_eq_false_iff_ne.mpr (fun hh => hidx hh.symm)
      rw [hevx]
      simpa using hle

/-- Bulk reconciliation preserves the seat invariant (it may strictly
lose seats, but never overshoots): an event gains one seat only when at
least one of its pending bookings left the held set. -/
theorem seatInv_reconcile (db : DB) (now : Int) (hinv : seatInv db) :
    seatInv (cancelExpiredBookings db now).2 := by
  have hev : (cancelExpiredBookings db now).2.events =
      db.events.map (fun e =>
        if ((db.bookings.filter (expiredMatch now)).map
            (fun b => b.event_id)).contains e.id then
          { e with
            available_seats := e.available_seats + 1, updated_at := now }
        else e) := rfl
  have hbk : (cancelExpiredBookings db now).2.bookings =
      db.bookings.map (fun bk =>
        if expiredMatch now bk then
          { bk with status := BStatus.cancelled, updated_at := now }
        else bk) := rfl
  have hheld2 : ∀ x, heldCount (cancelExpiredBookings db now).2 x =
      db.bookings.countP
        (fun bk => heldMatch x bk && !(expiredMatch now bk)) := by
    intro x
    rw [heldCount_eq_countP, hbk]
    apply countP_map_flip
    · intro bk hmt
      rw [if_pos hmt]
      simp [heldMatch]
    · intro bk hmf
      simp [hmf]
  intro e2 he2
  rw [hev] at he2
  obtain ⟨e, he, rfl⟩ := List.mem_map.mp he2
  obtain ⟨h0, hle⟩ := hinv e he
  rw [heldCount_eq_countP] at hle
  have hsp := countP_split (heldMatch e.id) (expiredMatch now) db.bookings
  by_cases hc : (((db.bookings.filter (expiredMatch now)).map
      (fun b => b.event_id)).contains e.id) = true
  · rw [if_pos hc]
    dsimp only
    rw [hheld2]
    have hpos : 0 < db.bookings.countP
        (fun bk => heldMatch e.id bk && expiredMatch now bk) := by
      have hmem : e.id ∈ (db.bookings.filter (expiredMatch now)).map
          (fun b => b.event_id) := by simpa using hc
      obtain ⟨bk, hbkf, hbkid⟩ := List.mem_map.mp hmem
      obtain ⟨hbkB, hbke⟩ := List.mem_filter.mp hbkf
      refine List.countP_pos_iff.mpr ⟨bk, hbkB, ?_⟩
      have hpend : bk.status = BStatus.pending := by
        simp only [expiredMatch, Bool.and_eq_true, beq_iff_eq,
          decide_eq_true_eq] at hbke
        exact hbke.1
      simp [heldMatch, hbkid, hpend, hbke]
    omega
  · rw [if_neg hc]
    refine ⟨h0, ?_⟩
    rw [hheld2]
    omega

/-- An id-preserving rewrite of the `events` table keeps the primary key
property. -/
theorem nodup_of_map_events (db db2 : DB) (f : EventRow → EventRow)
    (hf : ∀ e, (f e).id = e.id) (hev : db2.events = db.events.map f)
    (hwf : eventIdsNodup db) : eventIdsNodup db2 := by
  unfold eventIdsNodup at *
  rw [hev, map_ids_of_pres f hf]
  exact hwf

/-- Every operation preserves the primary key property and the seat
invariant. -/
theorem invariants_applyOp (db : DB) (op : Op) (hwf : eventIdsNodup db)
    (hinv : seatInv db) :
    eventIdsNodup (applyOp db op) ∧ seatInv (applyOp db op) := by
  cases op with
  | book now u ev =>
    cases hok : bookEvent db now u ev with
    | error err =>
      have happ : applyOp db (Op.book now u ev) = db := by
        simp [applyOp, hok]
      rw [happ]
      exact ⟨hwf, hinv⟩
    | ok p =>
      obtain ⟨bid, db2⟩ := p
      have happ : applyOp db (Op.book now u ev) = db2 := by
        simp [applyOp, hok]
      rw [happ]
      obtain ⟨xat, hcb⟩ := bookEvent_ok_inv db now u ev bid db2 hok
      obtain ⟨hev, -, -, -, -⟩ :=
        createBooking_ok_shape db now ev u xat bid db2 hcb
      refine ⟨nodup_of_map_events db db2 _ ?_ hev hwf,
        seatInv_book db db2 now u ev bid hwf hinv hok⟩
      intro e
      by_cases hrr : reserveMatch ev e = true <;> simp [hrr]
  | confirm now u ev b =>
    cases hok : confirmBooking db now u ev b with
    | error err =>
      have happ : applyOp db (Op.confirm now u ev b) = db := by
        simp [applyOp, hok]
      rw [happ]
      exact ⟨hwf, hinv⟩
    | ok db2 =>
      have happ : applyOp db (Op.confirm now u ev b) = db2 := by
        simp [applyOp, hok]
      rw [happ]
      obtain ⟨hev, -, -⟩ := confirmBooking_ok_shape db now u ev b db2 hok
      refine ⟨?_, seatInv_confirm db db2 now u ev b hinv hok⟩
      unfold eventIdsNodup at *
      rw [hev]
      exact hwf
  | cancel now u ev b =>
    cases hok : cancelBooking db now u ev b with
    | error err =>
      have happ : applyOp db (Op.cancel now u ev b) = db := by
        simp [applyOp, hok]
      rw [happ]
      exact ⟨hwf, hinv⟩
    | ok db2 =>
      have happ : applyOp db (Op.cancel now u ev b) = db2 := by
        simp [applyOp, hok]
      rw [happ]
      obtain ⟨hev, -, -, -⟩ := cancelBooking_ok_shape db now u ev b db2 hok
      refine ⟨nodup_of_map_events db db2 _ ?_ hev hwf,
        seatInv_cancel db db2 now u ev b hinv hok⟩
      intro e
      by_cases hrr : (e.id == ev) = true <;> simp [hrr]
  | reconcile now =>
    have happ : applyOp db (Op.reconcile now) =
        (cancelExpiredBookings db now).2 := rfl
    rw [happ]
    refine ⟨?_, seatInv_reconcile db now hinv⟩
    have hev : (cancelExpiredBookings db now).2.events =
        db.events.map (fun e =>
          if ((db.bookings.filter (expiredMatch now)).map
              (fun b => b.event_id)).contains e.id then
            { e with
              available_seats := e.available_seats + 1, updated_at := now }
          else e) := rfl
    refine nodup_of_map_events db _ _ ?_ hev hwf
    intro e
    by_cases hcc : (((db.bookings.filter (expiredMatch now)).map
        (fun b => b.event_id)).contains e.id) = true
    · rw [if_pos hcc]
    · rw [if_neg hcc]

/-- Any sequence of operations preserves the primary key property and the
seat invariant. -/
theorem invariants_applyOps (ops : List Op) :
    ∀ (db : DB), eventIdsNodup db → seatInv db →
      eventIdsNodup (applyOps db ops) ∧ seatInv (applyOps db ops) := by
  induction ops with
  | nil => exact fun db hwf hinv => ⟨hwf, hinv⟩
  | cons op rest ih =>
    intro db hwf hinv
    obtain ⟨hwf2, hinv2⟩ := invariants_applyOp db op hwf hinv
    exact ih (applyOp db op) hwf2 hinv2

/-- Exact accounting for a batch of reservations against one event:
with `n` seats free and a unique event row, the first `n` calls succeed
and every further call fails with `NoSeatsAvailable`. -/
theorem reserveAll_spec (now : Int) (ev : Nat) :
    ∀ (users : List Nat) (db : DB) (e0 : EventRow) (n : Nat),
      eventsWith db ev = [e0] → e0.available_seats = (n : Int) →
      (reserveAll db now ev users).2.countP isOkRes = min n users.length ∧
      (reserveAll db now ev users).2.countP isNoSeatsRes =
        users.length - min n users.length ∧
      ∃ e1, eventsWith (reserveAll db now ev users).1 ev = [e1] ∧
        e1.available_seats = ((n - min n users.length : Nat) : Int) := by
  intro users
  induction users with
  | nil =>
    intro db e0 n h hn
    refine ⟨by simp [reserveAll], by simp [reserveAll], e0, ?_, ?_⟩
    · simp [reserveAll, h]
    · simpa [reserveAll] using hn
  | cons u rest ih =>
    intro db e0 n h hn
    cases n with
    | zero =>
      have hle : e0.available_seats ≤ 0 := by
        rw [hn]
        simp
      have herr := (bookEvent_spec db now u ev e0 h).1 hle
      have hstep : reserveAll db now ev (u :: rest) =
          ((reserveAll db now ev rest).1,
            Except.error Err.noSeatsAvailable ::
              (reserveAll db now ev rest).2) := by
        simp [reserveAll, herr]
      obtain ⟨ih1, ih2, e1, he1, hav⟩ := ih db e0 0 h hn
      rw [hstep]
      refine ⟨?_, ?_, e1, he1, ?_⟩
      · simp only [List.countP_cons, isOkRes, ih1]
        simp
      · simp only [List.countP_cons, isNoSeatsRes, ih2]
        simp
      · simpa using hav
    | succ m =>
      have hpos : 0 < e0.available_seats := by
        rw [hn]
        exact_mod_cast Nat.succ_pos m
      have hok := (bookEvent_spec db now u ev e0 h).2 hpos
      have hew := eventsWith_bookResult db now u ev e0 h hpos
      have hn' : ({ e0 with
          available_seats := e0.available_seats - 1,
          updated_at := now } : EventRow).available_seats = (m : Int) := by
        dsimp only
        rw [hn]
        push_cast
        ring
      have hstep : reserveAll db now ev (u :: rest) =
          ((reserveAll (bookResult db now u ev e0) now ev rest).1,
            Except.ok db.nextID ::
              (reserveAll (bookResult db now u ev e0) now ev rest).2) := by
        simp [reserveAll, hok]
      obtain ⟨ih1, ih2, e1, he1, hav⟩ :=
        ih (bookResult db now u ev e0)
          { e0 with
            available_seats := e0.available_seats - 1,
            updated_at := now } m hew hn'
      rw [hstep]
      refine ⟨?_, ?_, e1, he1, ?_⟩
      · simp only [List.countP_cons, isOkRes, ih1]
        simp
        omega
      · simp only [List.countP_cons, isNoSeatsRes, ih2]
        simp
        omega
      · rw [hav]
        simp only [List.length_cons]
        congr 1
        omega

/-- C4: no overselling.  (a) Against a unique event row with `n` free
seats, a batch of `n + k` reservations (any serialization of concurrent
`reserveSeat` calls, each being one atomic conditional decrement) yields
exactly `n` successes and `k` failures, every failure being
`NoSeatsAvailable`, and leaves the event with zero free seats.
(b) From any store satisfying the primary key property and the seat
invariant, an arbitrary sequence of operations (reserve, confirm, cancel,
reconcile) keeps `available_seats` non-negative and never above
`total_seats`. -/
theorem c4_no_overselling (db : DB) (now : Int) (ev : Nat) (e0 : EventRow)
    (n k : Nat) (users : List Nat)
    (h : eventsWith db ev = [e0]) (hn : e0.available_seats = (n : Int))
    (hlen : users.length = n + k) :
    ((reserveAll db now ev users).2.countP isOkRes = n ∧
     (reserveAll db now ev users).2.countP isNoSeatsRes = k ∧
     ∃ e1, eventsWith (reserveAll db now ev users).1 ev = [e1] ∧
       e1.available_seats = 0) ∧
    (∀ (db0 : DB) (ops : List Op), eventIdsNodup db0 → seatInv db0 →
      seatInv (applyOps db0 ops) ∧
      ∀ e ∈ (applyOps db0 ops).events,
        0 ≤ e.available_seats ∧ e.available_seats ≤ e.total_seats) := by
  constructor
  · obtain ⟨h1, h2, e1, he1, hav⟩ := reserveAll_spec now ev users db e0 n h hn
    have hmin : min n users.length = n := by omega
    refine ⟨by rw [h1, hmin], by rw [h2, hmin]; omega, e1, he1, ?_⟩
    rw [hav, hmin]
    simp
  · intro db0 ops hwf hinv
    obtain ⟨-, hinv2⟩ := invariants_applyOps ops db0 hwf hinv
    refine ⟨hinv2, fun e he => ?_⟩
    obtain ⟨ha, hb⟩ := hinv2 e he
    have hnn : (0 : Int) ≤ (heldCount (applyOps db0 ops) e.id : Int) :=
      Int.natCast_nonneg _
    exact ⟨ha, by omega⟩

/-- A store with one event (id 9) having one free seat out of one. -/
def dbC4 : DB :=
  { events := [{ id := 9, title := "show", date := 900, total_seats := 1,
                 available_seats := 1, booking_ttl := 30, created_at := 0,
                 updated_at := 0 }],
    bookings := [], nextID := 0 }

/-- Witness for C4 with `n = 1, k = 1`: of two reservations against the
single-seat event, exactly one succeeds, the other fails with
`NoSeatsAvailable`, and the event ends sold out; the invariant half is
instantiated as stated. -/
theorem c4_witness :
    ((reserveAll dbC4 5 9 [21, 22]).2.countP isOkRes = 1 ∧
     (reserveAll dbC4 5 9 [21, 22]).2.countP isNoSeatsRes = 1 ∧
     ∃ e1, eventsWith (reserveAll dbC4 5 9 [21, 22]).1 9 = [e1] ∧
       e1.available_seats = 0) ∧
    (∀ (db0 : DB) (ops : List Op), eventIdsNodup db0 → seatInv db0 →
      seatInv (applyOps db0 ops) ∧
      ∀ e ∈ (applyOps db0 ops).events,
        0 ≤ e.available_seats ∧ e.available_seats ≤ e.total_seats) :=
  c4_no_overselling dbC4 5 9
    { id := 9, title := "show", date := 900, total_seats := 1,
      available_seats := 1, booking_ttl := 30, created_at := 0,
      updated_at := 0 }
    1 1 [21, 22] (by decide) (by decide) (by decide)

end EventBooker
